import Mathlib

/-
Verification of the ShellPer Capture Queue & Analysis Pipeline Coordinator.

This file gives a shallow embedding, in Lean 4, of the queue and pipeline
logic of the repository:

* `src/electron/ScreenshotHelper.ts` — the capture queues
  (`addToScreenshotQueue`, `clearQueues`, `deleteScreenshot`);
* `ProcessingHelper.ts` (src/unnamed/part_005) — the two pipelines
  (`processScreenshots`, `processExtraScreenshots`,
  `cancelOngoingRequests`, `normalizeImage`, the response-interpretation
  helpers `extractJSONFromResponse`, `extractTitle`, `extractDescription`,
  `extractCodeBlocks`, `extractExamples`, `extractList`, `extractField`,
  and `removeMyThoughtsSection`);
* `main.ts` (src/unnamed/part_004) — the `takeScreenshot` entry point and
  the coordinator state;
* `src/src/_pages/Solutions.tsx` — the solution-response interpreter in
  the `onSolutionSuccess` handler.

External effects (file system, the OS capture command, ImageMagick, the
OCR engine, the local inference backend) are modelled as explicit oracle
parameters giving each call's outcome; machine state is passed explicitly.
JavaScript regular-expression behaviour (leftmost match, greedy/lazy
quantifiers with backtracking) is implemented by dedicated scanners over
`List Char`, specialised to the concrete patterns of the source.
-/

/-! ## View state and ScreenshotHelper queues (ScreenshotHelper.ts) -/

/-- The three-state view lifecycle of the coordinator:
`"queue" | "solutions" | "debug"` in `ScreenshotHelper.ts` line 17. -/
inductive View where
  | queue
  | solutions
  | debug
deriving DecidableEq, Repr

/-- Mutable state of a `ScreenshotHelper` instance: the primary queue
(`screenshotQueue`), the secondary queue (`extraScreenshotQueue`) and the
current view (lines 12–17 of `ScreenshotHelper.ts`). -/
structure HelperState where
  screenshotQueue : List String
  extraScreenshotQueue : List String
  view : View
deriving DecidableEq, Repr

/-- `MAX_SCREENSHOTS = 2` (`ScreenshotHelper.ts` line 14). -/
def MAX_SCREENSHOTS : Nat := 2

/-- Embedding of `addToScreenshotQueue` (`ScreenshotHelper.ts` lines 55–77).
The duplicate guard tests membership in `this.screenshotQueue` — the primary
queue — whatever the current view is.  In `queue` view, when the primary
queue is at capacity the oldest entry is `shift`ed off before the `push`;
in any other view the path is pushed onto the secondary queue. -/
def addToScreenshotQueue (s : HelperState) (filepath : String) : HelperState :=
  if filepath ∈ s.screenshotQueue then
    s
  else if s.view = View.queue then
    if MAX_SCREENSHOTS ≤ s.screenshotQueue.length then
      { s with screenshotQueue := s.screenshotQueue.tail ++ [filepath] }
    else
      { s with screenshotQueue := s.screenshotQueue ++ [filepath] }
  else
    { s with extraScreenshotQueue := s.extraScreenshotQueue ++ [filepath] }

/-- Embedding of `clearQueues` (`ScreenshotHelper.ts` lines 79–100).
`unlinkOk p` is the outcome of the asynchronous `fs.unlink` for path `p`;
a failed unlink only produces a `console.error` log (returned here as the
second component) and both in-memory queues are reassigned to `[]`
unconditionally. -/
def clearQueues (unlinkOk : String → Bool) (s : HelperState) :
    HelperState × List String :=
  let errs₁ := s.screenshotQueue.filter (fun p => ! unlinkOk p)
  let errs₂ := s.extraScreenshotQueue.filter (fun p => ! unlinkOk p)
  ({ s with screenshotQueue := [], extraScreenshotQueue := [] }, errs₁ ++ errs₂)

/-- Embedding of `deleteScreenshot` (`ScreenshotHelper.ts` lines 271–290).
`unlinkOk` is the outcome of `fs.promises.unlink path`.  On success the
path is filtered out of the queue selected by the *current view* (primary
in `queue` view, secondary otherwise); on failure the state is untouched
and `{ success: false, error }` is returned. -/
def deleteScreenshot (unlinkOk : Bool) (p : String) (s : HelperState) :
    HelperState × Bool × Option String :=
  if unlinkOk then
    if s.view = View.queue then
      ({ s with screenshotQueue := s.screenshotQueue.filter (· != p) }, true, none)
    else
      ({ s with extraScreenshotQueue := s.extraScreenshotQueue.filter (· != p) },
        true, none)
  else
    (s, false, some "Error deleting file")

/-- Helper lemma: one enqueue step preserves the capacity bound of the
primary queue. -/
theorem addToScreenshotQueue_length_le (s : HelperState) (f : String)
    (h : s.screenshotQueue.length ≤ MAX_SCREENSHOTS) :
    (addToScreenshotQueue s f).screenshotQueue.length ≤ MAX_SCREENSHOTS := by
  unfold addToScreenshotQueue
  simp only [MAX_SCREENSHOTS] at *
  split
  · exact h
  · split
    · split
      · next hfull =>
        simp only [List.length_append, List.length_tail, List.length_cons,
          List.length_nil]
        omega
      · next hroom =>
        simp only [List.length_append, List.length_cons, List.length_nil]
        omega
    · exact h

/-- Claim C3: while the view is `queue`, the primary queue's length never
exceeds 2 across every sequence of enqueues starting within capacity, and a
(non-duplicate) enqueue arriving when the primary queue already holds 2
entries removes the oldest (front) entry before appending the new one,
preserving FIFO order. -/
theorem C3_primary_queue_capacity_and_fifo :
    (∀ (s : HelperState) (fs : List String),
        s.screenshotQueue.length ≤ MAX_SCREENSHOTS →
        (fs.foldl addToScreenshotQueue s).screenshotQueue.length ≤ MAX_SCREENSHOTS) ∧
    (∀ (s : HelperState) (f : String),
        s.view = View.queue →
        s.screenshotQueue.length = MAX_SCREENSHOTS →
        f ∉ s.screenshotQueue →
        (addToScreenshotQueue s f).screenshotQueue =
          s.screenshotQueue.tail ++ [f]) := by
  constructor
  · intro s fs
    induction fs generalizing s with
    | nil => intro h; exact h
    | cons g gs ih =>
      intro h
      exact ih _ (addToScreenshotQueue_length_le s g h)
  · intro s f hv hlen hf
    unfold addToScreenshotQueue
    rw [if_neg hf, if_pos hv, if_pos (le_of_eq hlen.symm)]

/-- Witness for C3 at concrete inputs: three enqueues from an empty primary
queue stay within capacity, and enqueuing "c" into the full queue
["a", "b"] evicts "a" and appends "c". -/
theorem C3_witness :
    (["x", "y", "z"].foldl addToScreenshotQueue
        (HelperState.mk [] [] View.queue)).screenshotQueue.length ≤ MAX_SCREENSHOTS ∧
    (addToScreenshotQueue (HelperState.mk ["a", "b"] [] View.queue) "c").screenshotQueue
      = ["b", "c"] :=
  ⟨C3_primary_queue_capacity_and_fifo.1 _ _ (by decide),
   by
     have h := C3_primary_queue_capacity_and_fifo.2
       (HelperState.mk ["a", "b"] [] View.queue) "c" rfl (by decide) (by decide)
     simpa using h⟩

/-- Claim C4, refuting evaluation: the duplicate guard of
`addToScreenshotQueue` consults only the primary queue, so in `solutions`
view enqueuing a path already present in the secondary queue appends it
again (producing a duplicate), and a path held in the secondary queue is
also enqueued into the primary queue in `queue` view, appearing in both
queues at once. -/
theorem C4_duplicate_not_rejected :
    (addToScreenshotQueue (addToScreenshotQueue
        (HelperState.mk [] [] View.solutions) "a") "a").extraScreenshotQueue
      = ["a", "a"] ∧
    addToScreenshotQueue (HelperState.mk [] ["a"] View.queue) "a"
      = HelperState.mk ["a"] ["a"] View.queue := by
  decide

/-- Claim C5, counterexample: with the view at `queue` and the path "a" held
only in the secondary queue, a successful file deletion reports success yet
leaves the reference in place — removal is scoped to the view-selected
queue, not to "whichever queue contains it". -/
theorem C5_counterexample :
    deleteScreenshot true "a" (HelperState.mk [] ["a"] View.queue)
      = (HelperState.mk [] ["a"] View.queue, true, none) := by
  decide

/-- Claim C5 (amended): `deleteScreenshot` removes the reference from the
queue selected by the current view (primary in `queue` view, secondary
otherwise) exactly when the underlying file deletion succeeds, leaving the
other queue unchanged; when deletion fails both queues are unchanged and
the operation reports failure with an error. -/
theorem C5_removal_gated_on_delete (ok : Bool) (p : String) (s : HelperState) :
    (ok = true → s.view = View.queue →
        p ∉ (deleteScreenshot ok p s).1.screenshotQueue ∧
        (deleteScreenshot ok p s).1.extraScreenshotQueue = s.extraScreenshotQueue ∧
        (deleteScreenshot ok p s).2.1 = true ∧
        (deleteScreenshot ok p s).2.2 = none) ∧
    (ok = true → s.view ≠ View.queue →
        p ∉ (deleteScreenshot ok p s).1.extraScreenshotQueue ∧
        (deleteScreenshot ok p s).1.screenshotQueue = s.screenshotQueue ∧
        (deleteScreenshot ok p s).2.1 = true ∧
        (deleteScreenshot ok p s).2.2 = none) ∧
    (ok = false →
        (deleteScreenshot ok p s).1 = s ∧
        (deleteScreenshot ok p s).2.1 = false ∧
        (deleteScreenshot ok p s).2.2.isSome = true) := by
  refine ⟨?_, ?_, ?_⟩
  · rintro rfl hv
    simp [deleteScreenshot, hv, List.mem_filter]
  · rintro rfl hv
    simp [deleteScreenshot, if_neg hv, List.mem_filter]
  · rintro rfl
    simp [deleteScreenshot]

/-- Witness for C5 (amended) at concrete inputs. -/
theorem C5_witness :
    "a" ∉ (deleteScreenshot true "a"
        (HelperState.mk ["a"] [] View.queue)).1.screenshotQueue ∧
    (deleteScreenshot false "a" (HelperState.mk ["a"] [] View.queue)).1
      = HelperState.mk ["a"] [] View.queue :=
  ⟨((C5_removal_gated_on_delete true "a"
      (HelperState.mk ["a"] [] View.queue)).1 rfl rfl).1,
   ((C5_removal_gated_on_delete false "a"
      (HelperState.mk ["a"] [] View.queue)).2.2 rfl).1⟩

/-- Claim C6: `clearQueues` leaves both the primary and the secondary queue
empty, for every outcome of the underlying per-file delete operations. -/
theorem C6_clear_always_empties (unlinkOk : String → Bool) (s : HelperState) :
    (clearQueues unlinkOk s).1.screenshotQueue = [] ∧
    (clearQueues unlinkOk s).1.extraScreenshotQueue = [] :=
  ⟨rfl, rfl⟩

/-! ## Data model: JSON values, ProblemInfo, events -/

/-- A JSON value, as produced by `JSON.parse`.  Numbers keep their source
lexeme: no claim inspects numeric values. -/
inductive Json where
  | null
  | bool (b : Bool)
  | num (lexeme : String)
  | str (s : String)
  | arr (elems : List Json)
  | obj (fields : List (String × Json))

/-- The structured problem record built by `processScreenshots`
(ProcessingHelper.ts lines 399–408 and 436–444): `{title, description,
code, examples, constraints, function_signature, original_problem}`,
optionally augmented with `extraInfo` by the debug pipeline.  The
`examples` entries are raw JSON values because `extractExamples` may
return an array parsed by `JSON.parse`. -/
structure ProblemInfo where
  title : String
  description : String
  code : String
  examples : List Json
  constraints : List String
  function_signature : String
  original_problem : String
  extraInfo : Option String := none

/-- The dynamically-typed problem value held in `state.problemInfo`: either
a raw object from `JSON.parse` or the structured record built by the
heuristic path. -/
inductive ProblemVal where
  | fromJson (j : Json)
  | structured (p : ProblemInfo)

/-- Events sent to the renderer through `PROCESSING_EVENTS`
(main.ts lines 141–153). -/
inductive Event where
  | noScreenshots
  | initialStart
  | problemExtracted (p : ProblemVal)
  | solutionSuccess (solution : String)
  | initialSolutionError (msg : String)
  | debugStart
  | debugSuccess (p : ProblemVal)
  | debugError (msg : String)
  | screenshotInProgressEvt (b : Bool)

/-! ## takeScreenshot (main.ts lines 1064–1116) -/

/-- Coordinator-side state relevant to `takeScreenshot`: the
`ScreenshotHelper` state, the `state.screenshotInProgress` flag and window
visibility. -/
structure MainState where
  helper : HelperState
  screenshotInProgress : Bool
  isWindowVisible : Bool
deriving DecidableEq, Repr

/-- Outcome of the OS capture call `ScreenshotHelper.takeScreenshot()`:
either success with the normalized file path, or a failure message
(`result.error || "Screenshot failed"`). -/
inductive CaptureOutcome where
  | ok (normalizedPath : String)
  | failed (msg : String)
deriving DecidableEq, Repr

/-- Embedding of `takeScreenshot` (main.ts lines 1064–1116).  Returns the
function result (`Except.error` models a thrown error), the final state,
the renderer events sent, and whether the OS capture was invoked.  When
`state.screenshotInProgress` is set the function returns `""` at once,
before any event, state change or capture.  Window hide/show during the
capture is out of scope; visibility is restored before return, so it is
unchanged here. -/
def takeScreenshot (s : MainState) (capture : CaptureOutcome) :
    Except String String × MainState × List Event × Bool :=
  if s.screenshotInProgress then
    (Except.ok "", s, [], false)
  else
    match capture with
    | CaptureOutcome.ok fp =>
        (Except.ok fp,
         { s with helper := addToScreenshotQueue s.helper fp,
                  screenshotInProgress := false },
         [Event.screenshotInProgressEvt true, Event.screenshotInProgressEvt false],
         true)
    | CaptureOutcome.failed msg =>
        (Except.error msg,
         { s with screenshotInProgress := false },
         [Event.screenshotInProgressEvt true, Event.screenshotInProgressEvt false],
         true)

/-- Claim C10: invoking `takeScreenshot` while `screenshotInProgress` is set
returns the empty string immediately, without invoking the OS capture,
without modifying any state (in particular either queue), without emitting
events, and without raising an error. -/
theorem C10_debounce_returns_empty (s : MainState) (c : CaptureOutcome)
    (h : s.screenshotInProgress = true) :
    takeScreenshot s c = (Except.ok "", s, [], false) := by
  simp [takeScreenshot, h]

/-- Witness for C10 at a concrete busy state. -/
theorem C10_witness :
    takeScreenshot (MainState.mk (HelperState.mk ["q"] [] View.queue) true true)
        (CaptureOutcome.ok "p")
      = (Except.ok "",
         MainState.mk (HelperState.mk ["q"] [] View.queue) true true, [], false) :=
  C10_debounce_returns_empty _ _ rfl

/-! ## normalizeImage (ProcessingHelper.ts lines 646–721) -/

/-- Outcomes of the external calls made by `ProcessingHelper.normalizeImage`:
whether the normalized artifact already exists, whether `magick identify`
succeeds, whether the primary `execSync` strategy succeeds, whether its
output then passes the `existsSync && size > 0` check, whether the
simplified-fallback `execSync` succeeds, and whether `copyFileSync`
succeeds. -/
structure NormalizeEnv where
  alreadyNormalized : Bool
  identifyOk : Bool
  primaryExecOk : Bool
  primaryOutputUsable : Bool
  fallbackExecOk : Bool
  copyOk : Bool
deriving DecidableEq, Repr

/-- Embedding of `ProcessingHelper.normalizeImage` (lines 646–721).  The
existing artifact is returned unconditionally; the primary strategy's
output is verified (`existsSync && size > 0`) and a failed check throws
into the inner catch; the simplified fallback and the verbatim copy are
returned without verification; and the outer catch absorbs every remaining
error and returns the *original input path* — the function never raises. -/
def normalizeImage (env : NormalizeEnv) (inputPath normalizedPath : String) :
    String :=
  if env.alreadyNormalized then normalizedPath
  else if env.identifyOk && env.primaryExecOk && env.primaryOutputUsable then
    normalizedPath
  else if env.fallbackExecOk then normalizedPath
  else if env.copyOk then normalizedPath
  else inputPath

/-- Environment in which every normalization strategy fails. -/
def allFailEnv : NormalizeEnv := NormalizeEnv.mk false false false false false false

/-- Claim C9, counterexample: when the primary strategy, the simplified
fallback and the verbatim copy all fail, `normalizeImage` returns the
original input path as its result — no failure propagates to the caller
as an error. -/
theorem C9_counterexample :
    normalizeImage allFailEnv "in.png" "normalized/in.png" = "in.png" := by
  decide

/-- Claim C9 (amended): `normalizeImage` verifies existence and
non-emptiness only for the primary strategy's output; the simplified
fallback and the verbatim copy are returned unverified, and when every
strategy fails the function returns the original input path instead of
propagating an error.  It returns the input path exactly when no artifact
was cached and all three strategies failed. -/
theorem C9_total_fallback_no_error (env : NormalizeEnv) (i n : String)
    (h : i ≠ n) :
    (normalizeImage env i n = n ∨ normalizeImage env i n = i) ∧
    (normalizeImage env i n = i ↔
      (env.alreadyNormalized = false ∧
       (env.identifyOk = false ∨ env.primaryExecOk = false ∨
         env.primaryOutputUsable = false) ∧
       env.fallbackExecOk = false ∧ env.copyOk = false)) := by
  rcases env with ⟨a, b, c, d, e, f⟩
  cases a <;> cases b <;> cases c <;> cases d <;> cases e <;> cases f <;>
    simp [normalizeImage, h, Ne.symm h]

/-- Witness for C9 (amended) at the all-fail environment. -/
theorem C9_witness :
    (normalizeImage allFailEnv "a" "b" = "b" ∨
      normalizeImage allFailEnv "a" "b" = "a") ∧
    (normalizeImage allFailEnv "a" "b" = "a" ↔
      (allFailEnv.alreadyNormalized = false ∧
       (allFailEnv.identifyOk = false ∨ allFailEnv.primaryExecOk = false ∨
         allFailEnv.primaryOutputUsable = false) ∧
       allFailEnv.fallbackExecOk = false ∧ allFailEnv.copyOk = false)) :=
  C9_total_fallback_no_error allFailEnv "a" "b" (by decide)

/-! ## String scanning utilities

JavaScript regular expressions are modelled by explicit scanners over
`List Char`.  Each scanner's doc comment names the concrete pattern it
implements; greedy/lazy quantifier behaviour (with the backtracking the
concrete pattern can actually exercise) is reproduced case by case.  The
texts this pipeline handles are ASCII, so `\s` is modelled by the ASCII
whitespace characters and case folding by `Char.toLower`. -/

/-- JavaScript `\s` restricted to ASCII: space, tab, newline, carriage
return, vertical tab, form feed. -/
def isJsWs (c : Char) : Bool :=
  c == ' ' || c == '\t' || c == '\n' || c == '\r' || c == '\x0b' || c == '\x0c'

/-- JavaScript `\w`: letters, digits, underscore. -/
def isWordChar (c : Char) : Bool :=
  c.isAlpha || c.isDigit || c == '_'

/-- Length of the maximal leading run satisfying `p` (a greedy `X*`). -/
def countWhile (p : Char → Bool) (cs : List Char) : Nat :=
  (cs.takeWhile p).length

/-- Case-sensitive literal-at-start test. -/
def litAt : List Char → List Char → Bool
  | [], _ => true
  | _ :: _, [] => false
  | p :: ps, c :: cs => p == c && litAt ps cs

/-- Case-insensitive literal-at-start test (the regex `i` flag). -/
def litAtCI : List Char → List Char → Bool
  | [], _ => true
  | _ :: _, [] => false
  | p :: ps, c :: cs => p.toLower == c.toLower && litAtCI ps cs

/-- Index of the leftmost suffix satisfying `p` (the empty suffix
included), as a JS regex scan advancing one position at a time. -/
def findPos (p : List Char → Bool) : List Char → Option Nat
  | [] => if p [] then some 0 else none
  | c :: cs => if p (c :: cs) then some 0 else (findPos p cs).map (· + 1)

/-- Leftmost occurrence of a literal (`String.prototype.indexOf`). -/
def findLit (pat : List Char) (cs : List Char) : Option Nat :=
  findPos (litAt pat) cs

/-- Leftmost case-insensitive occurrence of a literal. -/
def findLitCI (pat : List Char) (cs : List Char) : Option Nat :=
  findPos (litAtCI pat) cs

/-- Index of the last character satisfying `p`. -/
def lastPos (p : Char → Bool) (cs : List Char) : Option Nat :=
  ((cs.enum.filter (fun x => p x.2)).getLast?).map (·.1)

/-- JavaScript `String.prototype.trim` on ASCII text. -/
def jsTrim (s : String) : String :=
  let l := s.toList.dropWhile isJsWs
  String.mk ((l.reverse.dropWhile isJsWs).reverse)

/-- JavaScript `a || b` for strings: `b` when `a` is empty (falsy). -/
def jsOr (a b : String) : String :=
  if a = "" then b else a

/-- JavaScript `a || b` for a nullable string `a`. -/
def jsOrOpt (a : Option String) (b : String) : String :=
  match a with
  | some s => if s = "" then b else s
  | none => b

/-! ## JSON.parse (used by extractJSONFromResponse, extractExamples,
extractList) -/

/-- Whitespace accepted between JSON tokens by `JSON.parse`. -/
def jsonSkipWs : List Char → List Char
  | [] => []
  | c :: cs =>
      if c == ' ' || c == '\t' || c == '\n' || c == '\r' then jsonSkipWs cs
      else c :: cs

/-- Value of a hexadecimal digit. -/
def hexVal (c : Char) : Option Nat :=
  if c.isDigit then some (c.toNat - 48)
  else if 'a' ≤ c && c ≤ 'f' then some (c.toNat - 87)
  else if 'A' ≤ c && c ≤ 'F' then some (c.toNat - 55)
  else none

/-- Four hexadecimal digits of a `\u` escape. -/
def parseHex4 : List Char → Option (Nat × List Char)
  | a :: b :: c :: d :: rest => do
      let va ← hexVal a
      let vb ← hexVal b
      let vc ← hexVal c
      let vd ← hexVal d
      some (va * 4096 + vb * 256 + vc * 16 + vd, rest)
  | _ => none

/-- A code point as a `Char`; lone UTF-16 surrogates (representable in a
JavaScript string but not as a Unicode scalar) map to U+FFFD.  The texts
this pipeline handles are ASCII, so the substitute is never reached on
inputs of interest. -/
def charOfCode (n : Nat) : Char :=
  if n < 0xd800 ∨ (0xe000 ≤ n ∧ n < 0x110000) then
    Char.ofNat n
  else
    Char.ofNat 0xfffd

/-- Body of a JSON string after the opening quote: decodes escapes,
rejects unescaped control characters, returns the decoded characters and
the text after the closing quote.  Fuel-indexed; `cs.length + 1` fuel
always suffices since every step consumes at least one character. -/
def jsonStringBody (fuel : Nat) (cs : List Char) : Option (List Char × List Char) :=
  match fuel, cs with
  | 0, _ => none
  | _, [] => none
  | fuel + 1, c :: cs =>
      if c == '"' then some ([], cs)
      else if c == '\\' then
        match cs with
        | [] => none
        | e :: cs' =>
            let cont := fun (ch : Char) (rest : List Char) =>
              (jsonStringBody fuel rest).map (fun x => (ch :: x.1, x.2))
            if e == '"' then cont '"' cs'
            else if e == '\\' then cont '\\' cs'
            else if e == '/' then cont '/' cs'
            else if e == 'b' then cont '\x08' cs'
            else if e == 'f' then cont '\x0c' cs'
            else if e == 'n' then cont '\n' cs'
            else if e == 'r' then cont '\r' cs'
            else if e == 't' then cont '\t' cs'
            else if e == 'u' then
              match parseHex4 cs' with
              | none => none
              | some (n, rest) =>
                  if 0xd800 ≤ n && n ≤ 0xdbff then
                    match rest with
                    | '\\' :: 'u' :: rest2 =>
                        match parseHex4 rest2 with
                        | some (m, rest3) =>
                            if 0xdc00 ≤ m && m ≤ 0xdfff then
                              cont (charOfCode
                                (0x10000 + (n - 0xd800) * 0x400 + (m - 0xdc00))) rest3
                            else cont (charOfCode n) rest
                        | none => cont (charOfCode n) rest
                    | _ => cont (charOfCode n) rest
                  else cont (charOfCode n) rest
            else none
      else if c.toNat < 0x20 then none
      else (jsonStringBody fuel cs).map (fun x => (c :: x.1, x.2))

/-- A JSON number lexeme: `-? (0 | [1-9][0-9]*) (. [0-9]+)? ([eE][+-]?[0-9]+)?`.
Returns the lexeme and the remaining text; malformed numbers (as rejected
by `JSON.parse`) give `none`. -/
def jsonNumber (cs : List Char) : Option (String × List Char) :=
  let (sign, cs1) :=
    match cs with
    | '-' :: r => (['-'], r)
    | _ => (([] : List Char), cs)
  match cs1 with
  | [] => none
  | c :: _ =>
      if ¬ c.isDigit then none
      else
        let (intPart, rest1) :=
          if c == '0' then (['0'], cs1.tail)
          else (cs1.takeWhile Char.isDigit, cs1.dropWhile Char.isDigit)
        let fracState : Option (List Char × List Char) :=
          match rest1 with
          | '.' :: r =>
              let ds := r.takeWhile Char.isDigit
              if ds = [] then none
              else some ('.' :: ds, r.dropWhile Char.isDigit)
          | _ => some ([], rest1)
        match fracState with
        | none => none
        | some (fracPart, rest2) =>
            let expState : Option (List Char × List Char) :=
              match rest2 with
              | e :: r =>
                  if e == 'e' || e == 'E' then
                    let (es, r1) :=
                      match r with
                      | '+' :: r2 => ([e, '+'], r2)
                      | '-' :: r2 => ([e, '-'], r2)
                      | _ => ([e], r)
                    let ds := r1.takeWhile Char.isDigit
                    if ds = [] then none
                    else some (es ++ ds, r1.dropWhile Char.isDigit)
                  else some ([], rest2)
              | [] => some ([], rest2)
            match expState with
            | none => none
            | some (expPart, rest3) =>
                some (String.mk (sign ++ intPart ++ fracPart ++ expPart), rest3)

/-- Parsing mode of the recursive-descent JSON parser: a value, or the
remaining items of an array or object being accumulated. -/
inductive PMode where
  | value
  | arrayRest (acc : List Json)
  | objectRest (acc : List (String × Json))

/-- Recursive-descent parser for JSON, fuel-indexed.  Each fuel step either
consumes input or moves from an `arrayRest`/`objectRest` state into `value`,
so `2 * length + 8` fuel always suffices. -/
def jsonP (fuel : Nat) (mode : PMode) (cs : List Char) : Option (Json × List Char) :=
  match fuel with
  | 0 => none
  | fuel + 1 =>
    match mode with
    | PMode.value =>
        let cs := jsonSkipWs cs
        match cs with
        | 'n' :: 'u' :: 'l' :: 'l' :: r => some (Json.null, r)
        | 't' :: 'r' :: 'u' :: 'e' :: r => some (Json.bool true, r)
        | 'f' :: 'a' :: 'l' :: 's' :: 'e' :: r => some (Json.bool false, r)
        | '"' :: r =>
            (jsonStringBody (r.length + 1) r).map
              (fun x => (Json.str (String.mk x.1), x.2))
        | '[' :: r =>
            let r := jsonSkipWs r
            match r with
            | ']' :: r2 => some (Json.arr [], r2)
            | _ => jsonP fuel (PMode.arrayRest []) r
        | '{' :: r =>
            let r := jsonSkipWs r
            match r with
            | '}' :: r2 => some (Json.obj [], r2)
            | _ => jsonP fuel (PMode.objectRest []) r
        | _ => (jsonNumber cs).map (fun x => (Json.num x.1, x.2))
    | PMode.arrayRest acc => do
        let (v, r) ← jsonP fuel PMode.value cs
        let r := jsonSkipWs r
        match r with
        | ',' :: r2 => jsonP fuel (PMode.arrayRest (acc ++ [v])) r2
        | ']' :: r2 => some (Json.arr (acc ++ [v]), r2)
        | _ => none
    | PMode.objectRest acc =>
        let cs := jsonSkipWs cs
        match cs with
        | '"' :: r1 => do
            let (k, r2) ← jsonStringBody (r1.length + 1) r1
            let r3 := jsonSkipWs r2
            match r3 with
            | ':' :: r4 => do
                let (v, r5) ← jsonP fuel PMode.value r4
                let r6 := jsonSkipWs r5
                match r6 with
                | ',' :: r7 =>
                    jsonP fuel (PMode.objectRest (acc ++ [(String.mk k, v)])) r7
                | '}' :: r7 => some (Json.obj (acc ++ [(String.mk k, v)]), r7)
                | _ => none
            | _ => none
        | _ => none

/-- `JSON.parse`, returning `none` where it would throw (in particular on
trailing non-whitespace). -/
def jsonParse (s : String) : Option Json :=
  match jsonP (2 * s.length + 8) PMode.value s.toList with
  | some (j, rest) => if jsonSkipWs rest = [] then some j else none
  | none => none

/-! ## Response-interpretation helpers (ProcessingHelper.ts lines 162–576) -/

/-- Embedding of `extractJSONFromResponse` (lines 474–486): the greedy
regex `/\x7b[\s\S]*\x7d/` selects from the first opening brace (provided a
closing brace follows it) to the last closing brace of the text;
`JSON.parse` failure yields null. -/
def extractJSONFromResponse (t : String) : Option Json := do
  let cs := t.toList
  let i ← findLit ['{'] cs
  let j ← lastPos (fun c => c == '}') cs
  if i < j then jsonParse (String.mk ((cs.drop i).take (j + 1 - i)))
  else none

/-- Attempt of `\s*([^\n]+)` at the text following a title label: the
greedy `\s*` backtracks from its maximal run until `[^\n]+` can match at
least one character. -/
def titleCaptureAt (after : List Char) : Option (List Char) :=
  let w := countWhile isJsWs after
  if w < after.length then
    some ((after.drop w).takeWhile (fun c => c != '\n'))
  else
    match lastPos (fun c => c != '\n') (after.take w) with
    | some k => some ((after.drop k).takeWhile (fun c => c != '\n'))
    | none => none

/-- Scanner for `/(?:Title:|Problem:|Question:|Exercise:)\s*([^\n]+)/i`:
positions are tried left to right; where a label matches but no capture is
possible the scan resumes one character further on. -/
def titleScan : List Char → Option (List Char)
  | [] => none
  | c :: cs =>
      let labels := ["Title:", "Problem:", "Question:", "Exercise:"]
      match labels.find? (fun l => litAtCI l.toList (c :: cs)) with
      | some l =>
          match titleCaptureAt ((c :: cs).drop l.length) with
          | some cap => some cap
          | none => titleScan cs
      | none => titleScan cs

/-- Embedding of `extractTitle` (lines 489–508): the labelled-title regex
(whose `[^\n]+` capture is non-empty, so a match always returns), then a
header-like line among the first three lines — trimmed, non-empty, length
strictly between 10 and 100 — else null. -/
def extractTitle (t : String) : Option String :=
  match titleScan t.toList with
  | some cap => some (jsTrim (String.mk cap))
  | none =>
      ((t.splitOn "\n").take 3).findSome? (fun l =>
        let line := jsTrim l
        if line ≠ "" ∧ line.length < 100 ∧ line.length > 10 then some line
        else none)

/-- Matches of `/Examples:|Example \d+:|Input:|Output:/i` at the head of a
suffix (the `search` of `extractDescription`'s fallback). -/
def exampleMarkerAt (suf : List Char) : Bool :=
  litAtCI "Examples:".toList suf ||
  (litAtCI "Example ".toList suf &&
    (let rest := suf.drop 8
     let d := countWhile Char.isDigit rest
     d != 0 && litAt [':'] (rest.drop d))) ||
  litAtCI "Input:".toList suf ||
  litAtCI "Output:".toList suf

/-- Lookahead `(?=Examples:|Input:|Output:|Constraints:|Code:|Function|$)`
of the description regex: distance to the first marker, or to the end. -/
def descMarkerStop (body : List Char) : Nat :=
  let markers := ["Examples:", "Input:", "Output:", "Constraints:", "Code:",
    "Function"]
  match findPos (fun suf => markers.any (fun m => litAtCI m.toList suf)) body with
  | some n => n
  | none => body.length

/-- Leftmost match of
`/(?:Description:|Problem Statement:|Instructions:)\s*([^]*?)(?=…)/is`,
returning the capture (possibly empty): maximal whitespace after the
label, then lazily up to the first marker or the end. -/
def descLabelCapture : List Char → Option (List Char)
  | [] => none
  | c :: cs =>
      let labels := ["Description:", "Problem Statement:", "Instructions:"]
      match labels.find? (fun l => litAtCI l.toList (c :: cs)) with
      | some l =>
          let after := (c :: cs).drop l.length
          let body := after.drop (countWhile isJsWs after)
          some (body.take (descMarkerStop body))
      | none => descLabelCapture cs

/-- Second branch of `extractDescription`: the text up to the first code
fence or example marker — each considered only at a strictly positive
index, as in the source — trimmed. -/
def descFallback (t : String) : String :=
  let cs := t.toList
  let e1 :=
    match findLit "```".toList cs with
    | some n => if 0 < n then min t.length n else t.length
    | none => t.length
  let e2 :=
    match findPos exampleMarkerAt cs with
    | some n => if 0 < n then min e1 n else e1
    | none => e1
  jsTrim (String.mk (cs.take e2))

/-- Embedding of `extractDescription` (lines 511–530).  A labelled match
with a non-empty capture returns the trimmed capture; an empty capture
falls through (`if (match && match[1])`) to the fallback prefix. -/
def extractDescription (t : String) : String :=
  match descLabelCapture t.toList with
  | some cap => if cap = [] then descFallback t else jsTrim (String.mk cap)
  | none => descFallback t

/-- Characters of the optional language tag `[\w\-+.]+` in the
ProcessingHelper fence pattern. -/
def isTagChar (c : Char) : Bool :=
  isWordChar c || c == '-' || c == '+' || c == '.'

/-- All captures of `/```(?:[\w\-+.]+)?\s*([^]*?)```/gs` in order: after an
opening fence the greedy tag and whitespace runs are maximal (backticks
are neither tag nor whitespace characters, so backtracking cannot change
the outcome) and the lazy capture stops at the first closing fence.  A
failed attempt advances the scan one character. -/
def fenceCapturesPH (fuel : Nat) (cs : List Char) : List String :=
  match fuel, cs with
  | 0, _ => []
  | _, [] => []
  | fuel + 1, c :: rest =>
      if litAt "```".toList (c :: rest) then
        let after := (c :: rest).drop 3
        let afterTag := after.drop (countWhile isTagChar after)
        let body := afterTag.drop (countWhile isJsWs afterTag)
        match findLit "```".toList body with
        | some k =>
            String.mk (body.take k) :: fenceCapturesPH fuel (body.drop (k + 3))
        | none => fenceCapturesPH fuel rest
      else fenceCapturesPH fuel rest

/-- One step of the indented/symbol-dense code-line fold in
`extractCodeBlocks` (lines 543–568); state is
(inCodeBlock, currentBlock, codeBlocks). -/
def codishStep (st : Bool × List String × List String) (line : String) :
    Bool × List String × List String :=
  let (inCodeBlock, currentBlock, codeBlocks) := st
  let isIndented :=
    litAt "    ".toList line.toList || litAt "\t".toList line.toList
  let looksCodish := line.toList.any (fun c =>
    c == '{' || c == '}' || c == ';' || c == '=' || c == '[' || c == ']' ||
    c == '<' || c == '>')
  if isIndented || looksCodish then
    (true, currentBlock ++ [line], codeBlocks)
  else if inCodeBlock && jsTrim line == "" then
    (inCodeBlock, currentBlock ++ [line], codeBlocks)
  else if inCodeBlock then
    (false, [],
      if 1 < currentBlock.length then
        codeBlocks ++ [String.intercalate "\n" currentBlock]
      else codeBlocks)
  else
    st

/-- Embedding of `extractCodeBlocks` (lines 533–576): fenced captures
joined by blank lines, else the indented/symbol-dense fallback. -/
def extractCodeBlocks (t : String) : String :=
  let caps := fenceCapturesPH (t.length + 1) t.toList
  if caps ≠ [] then
    String.intercalate "\n\n" (caps.map jsTrim)
  else
    let st := (t.splitOn "\n").foldl codishStep (false, [], [])
    let final :=
      if st.1 && 1 < st.2.1.length then
        st.2.2 ++ [String.intercalate "\n" st.2.1]
      else st.2.2
    String.intercalate "\n\n" final

/-- End of the lazy capture of `"?(.*?)"?[,\x7d]` (no `s` flag, so the
capture cannot cross a newline): the scan stops at the first position
offering a terminator, preferring the closing-quote reading. -/
def fieldCaptureEnd : List Char → Option Nat
  | [] => none
  | c :: cs =>
      if c == '\n' then none
      else if c == '"' && (cs.headD ' ' == ',' || cs.headD ' ' == '}') then some 0
      else if c == ',' || c == '}' then some 0
      else (fieldCaptureEnd cs).map (· + 1)

/-- Attempt of `"?\s*:\s*"?(.*?)"?[,\x7d]` after the field label; the
optional quotes are consumed when present (retrying without them cannot
succeed, since a quote satisfies none of the following tokens). -/
def fieldValueAfterLabel (after : List Char) : Option String :=
  let a1 := if after.headD ' ' == '"' then after.tail else after
  let a2 := a1.drop (countWhile isJsWs a1)
  match a2 with
  | ':' :: a3 =>
      let a4 := a3.drop (countWhile isJsWs a3)
      let a5 := if a4.headD ' ' == '"' then a4.tail else a4
      match fieldCaptureEnd a5 with
      | some q => some (jsTrim (String.mk (a5.take q)))
      | none => none
  | _ => none

/-- Embedding of `extractField` (lines 165–169): leftmost match of
`/"?NAME"?\s*:\s*"?(.*?)"?[,\x7d]/i`; a failed attempt resumes one
character further on. -/
def extractFieldScan (fieldName : List Char) : List Char → Option String
  | [] => none
  | c :: cs =>
      let lab : Option (List Char) :=
        if litAtCI fieldName (c :: cs) then some ((c :: cs).drop fieldName.length)
        else if c == '"' && litAtCI fieldName cs then
          some (cs.drop fieldName.length)
        else none
      match lab with
      | some after =>
          match fieldValueAfterLabel after with
          | some v => some v
          | none => extractFieldScan fieldName cs
      | none => extractFieldScan fieldName cs

/-- `extractField` on a whole text. -/
def extractField (t : String) (fieldName : String) : Option String :=
  extractFieldScan fieldName.toList t.toList

/-- Leftmost match of `/"?NAME"?\s*:\s*\[(.*?)\]/is`: the text between the
opening bracket and the first closing bracket after it; a failed attempt
resumes one character further on. -/
def listArrayCaptureScan (fieldName : List Char) : List Char → Option String
  | [] => none
  | c :: cs =>
      let lab : Option (List Char) :=
        if litAtCI fieldName (c :: cs) then some ((c :: cs).drop fieldName.length)
        else if c == '"' && litAtCI fieldName cs then
          some (cs.drop fieldName.length)
        else none
      match lab with
      | some after =>
          let a1 := if after.headD ' ' == '"' then after.tail else after
          let a2 := a1.drop (countWhile isJsWs a1)
          match a2 with
          | ':' :: a3 =>
              let a4 := a3.drop (countWhile isJsWs a3)
              match a4 with
              | '[' :: a5 =>
                  (match findLit [']'] a5 with
                   | some k => some (String.mk (a5.take k))
                   | none => listArrayCaptureScan fieldName cs)
              | _ => listArrayCaptureScan fieldName cs
          | _ => listArrayCaptureScan fieldName cs
      | none => listArrayCaptureScan fieldName cs

/-- Rendering of a JSON list entry into the `string[]` model; entries are
strings in practice, other shapes only occur off the claims' paths. -/
def jsonishToString : Json → String
  | Json.str s => s
  | Json.num l => l
  | Json.bool b => if b then "true" else "false"
  | Json.null => "null"
  | Json.arr _ => ""
  | Json.obj _ => ""

/-- One pass of `.replace(/^["']|["']$/g, '')`: removes one leading and
one trailing quote character (single or double). -/
def stripEdgeQuotes (s : String) : String :=
  let isQ := fun (c : Char) => c == '"' || c == '\''
  let l := s.toList
  let l1 :=
    match l with
    | c :: rest => if isQ c then rest else l
    | [] => ([] : List Char)
  let l2 :=
    if 2 ≤ l.length then
      match l1.getLast? with
      | some c => if isQ c then l1.dropLast else l1
      | none => l1
    else l1
  String.mk l2

/-- Marker alternatives `(?:\d+[\.\)\-]|[\.\*\-])` of the list-item
pattern; returns the marker's length when one matches at the head. -/
def listItemMarkerLen (suf : List Char) : Option Nat :=
  let d := countWhile Char.isDigit suf
  if d ≠ 0 then
    let c := (suf.drop d).headD ' '
    if c == '.' || c == ')' || c == '-' then some (d + 1) else none
  else
    let c := suf.headD ' '
    if c == '.' || c == '*' || c == '-' then some 1 else none

/-- `\s*([^\n]+)` after a list-item marker: maximal whitespace, backing
off within the run if it reaches the end of the text, then the maximal
non-newline capture.  Returns (whitespace consumed, capture). -/
def listItemBodyAt (after : List Char) : Option (Nat × List Char) :=
  let w := countWhile isJsWs after
  if w < after.length then
    some (w, (after.drop w).takeWhile (fun c => c != '\n'))
  else
    match lastPos (fun c => c != '\n') (after.take w) with
    | some k => some (k, (after.drop k).takeWhile (fun c => c != '\n'))
    | none => none

/-- All full matches of `/(?:\d+[\.\)\-]|[\.\*\-])\s*([^\n]+)/g` over the
text, in order. -/
def listItemMatches (fuel : Nat) (cs : List Char) : List String :=
  match fuel, cs with
  | 0, _ => []
  | _, [] => []
  | fuel + 1, c :: rest =>
      match listItemMarkerLen (c :: rest) with
      | some ml =>
          (match listItemBodyAt ((c :: rest).drop ml) with
           | some (w, cap) =>
               String.mk ((c :: rest).take (ml + w + cap.length)) ::
                 listItemMatches fuel ((c :: rest).drop (ml + w + cap.length))
           | none => listItemMatches fuel rest)
      | none => listItemMatches fuel rest

/-- `.replace(/^\d+[\.\)\-]|[\.\*\-]\s*/, '')` then `.trim()`: strips an
anchored numeric marker, or else the first bullet character together with
its following whitespace, wherever it occurs. -/
def stripItemMarker (m : String) : String :=
  let l := m.toList
  let d := countWhile Char.isDigit l
  let numericHead :=
    d ≠ 0 ∧ (let c := (l.drop d).headD ' '; c == '.' || c == ')' || c == '-')
  let stripped :=
    if numericHead then l.drop (d + 1)
    else
      match findPos (fun suf =>
          let c := suf.headD ' '
          c == '.' || c == '*' || c == '-') l with
      | some i =>
          let after := l.drop (i + 1)
          l.take i ++ after.drop (countWhile isJsWs after)
      | none => l
  jsTrim (String.mk stripped)

/-- Existence test of
`/NAME[^]*?(?:(?:\d+[\.\)\-]|[\.\*\-])\s*([^\n]+))+/i`: an occurrence of
the field name followed, anywhere later, by at least one item match. -/
def listLabelThenItem (fieldName : List Char) (cs : List Char) : Bool :=
  match findLitCI fieldName cs with
  | some i =>
      (findPos (fun suf =>
          match listItemMarkerLen suf with
          | some ml => (listItemBodyAt (suf.drop ml)).isSome
          | none => false) (cs.drop (i + fieldName.length))).isSome
  | none => false

/-- Embedding of `extractList` (lines 200–227): the bracketed-array regex
first (JSON-parsed when possible, else comma-split with edge quotes
stripped; an empty capture falls through), then the labelled
bullet/numbered list, else the empty list. -/
def extractList (t : String) (fieldName : String) : List String :=
  let cs := t.toList
  let arrayBranch : Option (List String) :=
    match listArrayCaptureScan fieldName.toList cs with
    | some inner =>
        if inner = "" then none
        else
          match jsonParse ("[" ++ inner ++ "]") with
          | some (Json.arr xs) => some (xs.map jsonishToString)
          | _ =>
              some ((inner.splitOn ",").map (fun item =>
                stripEdgeQuotes (jsTrim item)))
    | none => none
  match arrayBranch with
  | some r => r
  | none =>
      if listLabelThenItem fieldName.toList cs then
        (listItemMatches (cs.length + 1) cs).map stripItemMarker
      else []

/-- Capture of `/examples.*?:.*?\[(.*?)\]/is`: at the first `examples`
occurrence, the first colon after it, the first opening bracket after
that, and the text up to the first closing bracket (later starting points
cannot succeed where the first fails). -/
def examplesArrayCapture (t : String) : Option String := do
  let cs := t.toList
  let i ← findLitCI "examples".toList cs
  let a := cs.drop (i + 8)
  let c1 ← findLit [':'] a
  let b := a.drop (c1 + 1)
  let o ← findLit ['['] b
  let d := b.drop (o + 1)
  let k ← findLit [']'] d
  some (String.mk (d.take k))

/-- Lookahead `(?=example|\n\n|$)` of the example-item pattern. -/
def exLookAt (suf : List Char) : Bool :=
  litAtCI "example".toList suf || litAt ['\n', '\n'] suf || suf.isEmpty

/-- Test for `LABEL\s*:` at the head of a suffix (used for `output\s*:`
and `explanation\s*:`). -/
def labelColonAt (lab : List Char) (suf : List Char) : Bool :=
  litAtCI lab suf &&
    (let a := suf.drop lab.length
     (a.drop (countWhile isJsWs a)).headD ' ' == ':')

/-- Length consumed by `LABEL\s*:` where `labelColonAt` holds. -/
def labelColonLen (lab : List Char) (suf : List Char) : Nat :=
  lab.length + countWhile isJsWs (suf.drop lab.length) + 1

/-- Attempt of
`/example\s*\d*\s*:?\s*\n?input\s*:([^]*?)output\s*:([^]*?)(?:explanation\s*:([^]*?))?(?=example|\n\n|$)/i`
at a position where `example` matches: the interleaved whitespace, digit
and optional-colon runs are deterministic (their character classes are
disjoint), the first lazy capture stops at the earliest `output\s*:`, the
second at the earliest `explanation\s*:` or lookahead position (group
presence preferred), and the optional third at the earliest lookahead. -/
def exTryAt (cs : List Char) : Option (String × String × Option String × List Char) :=
  let a0 := cs.drop 7
  let a1 := a0.drop (countWhile isJsWs a0)
  let a2 := a1.drop (countWhile Char.isDigit a1)
  let a3 := a2.drop (countWhile isJsWs a2)
  let a4 := if a3.headD ' ' == ':' then a3.tail else a3
  let a5 := a4.drop (countWhile isJsWs a4)
  let a6 := if a5.headD ' ' == '\n' then a5.tail else a5
  if litAtCI "input".toList a6 then
    let b0 := a6.drop 5
    let b1 := b0.drop (countWhile isJsWs b0)
    match b1 with
    | ':' :: b2 =>
        (match findPos (labelColonAt "output".toList) b2 with
         | none => none
         | some p1 =>
             let cap1 := b2.take p1
             let c0 := b2.drop p1
             let c1 := c0.drop (labelColonLen "output".toList c0)
             match findPos (fun suf =>
                 labelColonAt "explanation".toList suf || exLookAt suf) c1 with
             | none => none
             | some q =>
                 let cap2 := c1.take q
                 let d0 := c1.drop q
                 if labelColonAt "explanation".toList d0 then
                   let d1 := d0.drop (labelColonLen "explanation".toList d0)
                   match findPos exLookAt d1 with
                   | none => none
                   | some r =>
                       some (String.mk cap1, String.mk cap2,
                         some (String.mk (d1.take r)), d1.drop r)
                 else
                   some (String.mk cap1, String.mk cap2, none, d0))
    | _ => none
  else none

/-- All matches of the example-item pattern (`matchAll`, flags `gi`). -/
def exampleItemsScan (fuel : Nat) (cs : List Char) :
    List (String × String × Option String) :=
  match fuel, cs with
  | 0, _ => []
  | _, [] => []
  | fuel + 1, c :: rest =>
      if litAtCI "example".toList (c :: rest) then
        match exTryAt (c :: rest) with
        | some (i, o, e, after) => (i, o, e) :: exampleItemsScan fuel after
        | none => exampleItemsScan fuel rest
      else exampleItemsScan fuel rest

/-- Embedding of `extractExamples` (lines 171–198): the bracketed
`examples` array when it JSON-parses (an empty capture falls through),
else the example-item matches, else the fixed default example. -/
def extractExamples (t : String) : List Json :=
  let parsed : Option (List Json) :=
    match examplesArrayCapture t with
    | some inner =>
        if inner = "" then none
        else
          match jsonParse ("[" ++ inner ++ "]") with
          | some (Json.arr xs) => some xs
          | _ => none
    | none => none
  match parsed with
  | some xs => xs
  | none =>
      let ms := exampleItemsScan (t.length + 1) t.toList
      if ms = [] then
        [Json.obj [("input", Json.str "Example input"),
                   ("output", Json.str "Example output")]]
      else
        ms.map (fun m =>
          Json.obj [("input", Json.str (jsTrim m.1)),
                    ("output", Json.str (jsTrim m.2.1)),
                    ("explanation", Json.str (jsOrOpt (m.2.2.map jsTrim) ""))])

/-- Embedding of the parsing section of `processScreenshots`
(lines 384–413): a cleanly parsed JSON object is used as the problem info
verbatim; otherwise a structured record is assembled by the heuristic
extractors, with `description` falling back to the whole response text
and `title` to "Code Analysis". -/
def interpretResponse (t : String) : ProblemVal :=
  match extractJSONFromResponse t with
  | some j => ProblemVal.fromJson j
  | none =>
      ProblemVal.structured
        { title := jsOrOpt (extractTitle t) "Code Analysis"
          description := jsOr (extractDescription t) t
          code := jsOr (extractCodeBlocks t) ""
          examples := extractExamples t
          constraints := extractList t "constraints"
          function_signature := jsOrOpt (extractField t "function_signature") ""
          original_problem := t }

/-- Last binding of a key in a JSON object (`JSON.parse` keeps the last
duplicate). -/
def jsonLookupLast (kvs : List (String × Json)) (key : String) : Option Json :=
  ((kvs.reverse).find? (fun kv => kv.1 == key)).map (·.2)

/-- The `description` member of a problem value, as JavaScript property
access sees it: absent on a parsed JSON value without that key. -/
def descriptionField : ProblemVal → Option Json
  | ProblemVal.fromJson (Json.obj kvs) => jsonLookupLast kvs "description"
  | ProblemVal.fromJson _ => none
  | ProblemVal.structured p => some (Json.str p.description)

/-- Claim C7, counterexample: for the empty response (which contains no
JSON object and no code fences) the interpretation step returns a
ProblemInfo whose description is empty, and for the response "\x7b\x7d"
the cleanly parsed JSON object is used verbatim and carries no
description member at all — in both cases "description is non-empty"
fails. -/
theorem C7_counterexample :
    descriptionField (interpretResponse "") = some (Json.str "") ∧
    descriptionField (interpretResponse "\x7b\x7d") = none :=
  ⟨rfl, rfl⟩

/-- Claim C7 (amended): the interpretation step is total — it never raises
and always returns a problem value — and whenever the response is
non-empty and contains no cleanly-parseable JSON object it builds a
structured ProblemInfo whose description is non-empty, falling back to
the full response text when no labelled description is found. -/
theorem C7_description_nonempty (t : String) (h1 : t ≠ "")
    (h2 : extractJSONFromResponse t = none) :
    ∃ s, descriptionField (interpretResponse t) = some (Json.str s) ∧ s ≠ "" := by
  unfold interpretResponse
  rw [h2]
  refine ⟨jsOr (extractDescription t) t, rfl, ?_⟩
  unfold jsOr
  split
  · exact h1
  · next hne => exact hne

/-- Witness for C7 (amended) at the response "hello". -/
theorem C7_witness :
    ∃ s, descriptionField (interpretResponse "hello") = some (Json.str s) ∧
      s ≠ "" :=
  C7_description_nonempty "hello" (by decide) rfl

/-! ## Solution-response interpretation (Solutions.tsx lines 316–362) -/

/-- The solution record built by the `onSolutionSuccess` handler:
`{code, thoughts, time_complexity, space_complexity}`. -/
structure SolutionData where
  code : String
  thoughts : List String
  time_complexity : String
  space_complexity : String
deriving DecidableEq, Repr

/-- The `match[2]` captures of `/(```[\w\s]*\n)([\s\S]*?)(```)/g` in
order: after an opening fence the greedy `[\w\s]*` run backtracks to the
last newline it contains (backticks are outside the class, so the set of
closing fences is unaffected), and the lazy capture stops at the first
closing fence.  A failed attempt advances the scan one character; after a
match the scan resumes past the closing fence. -/
def fenceCapturesSol (fuel : Nat) (cs : List Char) : List String :=
  match fuel, cs with
  | 0, _ => []
  | _, [] => []
  | fuel + 1, c :: rest =>
      if litAt "```".toList (c :: rest) then
        let after := (c :: rest).drop 3
        let run := after.take (countWhile (fun ch => isWordChar ch || isJsWs ch) after)
        match lastPos (fun ch => ch == '\n') run with
        | some k =>
            (match findLit "```".toList (after.drop (k + 1)) with
             | some m =>
                 String.mk ((after.drop (k + 1)).take m) ::
                   fenceCapturesSol fuel ((after.drop (k + 1)).drop (m + 3))
             | none => fenceCapturesSol fuel rest)
        | none => fenceCapturesSol fuel rest
      else fenceCapturesSol fuel rest

/-- Start index of the first match of `/```[\w\s]*\n[\s\S]*?```/` (the
pattern `split` uses to cut off the pre-code text). -/
def firstFenceStart (fuel : Nat) (cs : List Char) : Option Nat :=
  match fuel, cs with
  | 0, _ => none
  | _, [] => none
  | fuel + 1, c :: rest =>
      if litAt "```".toList (c :: rest) then
        let after := (c :: rest).drop 3
        let run := after.take (countWhile (fun ch => isWordChar ch || isJsWs ch) after)
        match lastPos (fun ch => ch == '\n') run with
        | some k =>
            (match findLit "```".toList (after.drop (k + 1)) with
             | some _ => some 0
             | none => (firstFenceStart fuel rest).map (· + 1))
        | none => (firstFenceStart fuel rest).map (· + 1)
      else (firstFenceStart fuel rest).map (· + 1)

/-- `solutionText.split(/```[\w\s]*\n[\s\S]*?```/)[0]`: the text before
the first fence match, or the whole text when there is none. -/
def preFenceText (t : String) : String :=
  match firstFenceStart (t.length + 1) t.toList with
  | some i => String.mk (t.toList.take i)
  | none => t

/-- Length of a match of `/\n\s*\n/` at the head of a suffix: a newline,
then the maximal whitespace run backtracked to its last contained
newline. -/
def paraSepLenAt (suf : List Char) : Option Nat :=
  match suf with
  | '\n' :: rest =>
      let run := rest.take (countWhile isJsWs rest)
      (match lastPos (fun ch => ch == '\n') run with
       | some k => some (k + 2)
       | none => none)
  | _ => none

/-- `String.prototype.split(/\n\s*\n/)`: the pieces between leftmost
non-overlapping separator matches. -/
def splitParas (fuel : Nat) (cs : List Char) (acc : List Char) : List String :=
  match fuel, cs with
  | 0, _ => [String.mk acc]
  | _, [] => [String.mk acc]
  | fuel + 1, c :: rest =>
      match paraSepLenAt (c :: rest) with
      | some n => String.mk acc :: splitParas fuel ((c :: rest).drop n) []
      | none => splitParas fuel rest (acc ++ [c])

/-- Paragraph split of a whole string. -/
def splitParagraphs (t : String) : List String :=
  splitParas (t.length + 1) t.toList []

/-- The reduce step of the handler: a strictly longer capture replaces the
current largest. -/
def pickLarger (largest m : String) : String :=
  if largest.length < m.length then m else largest

/-- `codeMatches.reduce((largest, match) => …, "")`: the first longest
capture, starting from the empty string. -/
def jsLargest (xs : List String) : String :=
  xs.foldl pickLarger ""

/-- Head test for `[Tt]ime [Cc]omplexity` (only the two initials are
case-flexible). -/
def timeLabelAt (suf : List Char) : Bool :=
  match suf with
  | a :: rest =>
      (a == 'T' || a == 't') && litAt "ime ".toList rest &&
        (match rest.drop 4 with
         | b :: rest2 => (b == 'C' || b == 'c') && litAt "omplexity".toList rest2
         | [] => false)
  | [] => false

/-- Head test for `[Ss]pace [Cc]omplexity`. -/
def spaceLabelAt (suf : List Char) : Bool :=
  match suf with
  | a :: rest =>
      (a == 'S' || a == 's') && litAt "pace ".toList rest &&
        (match rest.drop 5 with
         | b :: rest2 => (b == 'C' || b == 'c') && litAt "omplexity".toList rest2
         | [] => false)
  | [] => false

/-- Capture of `LABEL:?\s*([^\.]*)` at the leftmost label occurrence:
optional colon, maximal whitespace, then the maximal run of non-period
characters. -/
def complexityCaptureAfter (labelLen : Nat) (labelAt : List Char → Bool)
    (t : String) : Option String :=
  match findPos labelAt t.toList with
  | some i =>
      let after := t.toList.drop (i + labelLen)
      let a1 := if after.headD ' ' == ':' then after.tail else after
      let a2 := a1.drop (countWhile isJsWs a1)
      some (String.mk (a2.takeWhile (fun c => c != '.')))
  | none => none

/-- `solutionText.match(/[Tt]ime [Cc]omplexity:?\s*([^\.]*)/)`. -/
def timeComplexityCapture (t : String) : Option String :=
  complexityCaptureAfter 15 timeLabelAt t

/-- `solutionText.match(/[Ss]pace [Cc]omplexity:?\s*([^\.]*)/)`. -/
def spaceComplexityCapture (t : String) : Option String :=
  complexityCaptureAfter 16 spaceLabelAt t

/-- Embedding of the solution-parsing section of the `onSolutionSuccess`
handler (Solutions.tsx lines 316–362): the largest fenced capture as
`code` (falling back to the whole text when empty), the labelled
complexities defaulting to "O(n)", and the trimmed pre-code paragraphs of
trimmed length above 10 as `thoughts`. -/
def onSolutionSuccess (solutionText : String) : SolutionData :=
  let contents := fenceCapturesSol (solutionText.length + 1) solutionText.toList
  let code := jsLargest contents
  let timeComplexity :=
    match timeComplexityCapture solutionText with
    | some c => jsTrim c
    | none => "O(n)"
  let spaceComplexity :=
    match spaceComplexityCapture solutionText with
    | some c => jsTrim c
    | none => "O(n)"
  let thoughts :=
    ((splitParagraphs (preFenceText solutionText)).filter
      (fun p => decide (10 < (jsTrim p).length))).map jsTrim
  { code := jsOr code solutionText
    thoughts := thoughts
    time_complexity := jsOr timeComplexity "O(n)"
    space_complexity := jsOr spaceComplexity "O(n)" }

/-- A non-empty string has positive length. -/
theorem string_length_pos_of_ne_empty (s : String) (h : s ≠ "") :
    0 < s.length := by
  cases s with
  | mk data =>
    cases data with
    | nil => exact absurd rfl h
    | cons c cs => simp [String.length]

/-- The fold of `pickLarger` yields its seed or an element of the list. -/
theorem pickLarger_foldl_mem (xs : List String) (init : String) :
    xs.foldl pickLarger init = init ∨ xs.foldl pickLarger init ∈ xs := by
  induction xs generalizing init with
  | nil => exact Or.inl rfl
  | cons x xs ih =>
    simp only [List.foldl_cons]
    rcases ih (pickLarger init x) with h | h
    · rw [h]
      unfold pickLarger
      split
      · exact Or.inr (List.mem_cons_self _ _)
      · exact Or.inl rfl
    · exact Or.inr (List.mem_cons_of_mem _ h)

/-- The fold of `pickLarger` is at least as long as its seed. -/
theorem pickLarger_foldl_ge_init (xs : List String) (init : String) :
    init.length ≤ (xs.foldl pickLarger init).length := by
  induction xs generalizing init with
  | nil => exact le_refl _
  | cons x xs ih =>
    simp only [List.foldl_cons]
    refine le_trans ?_ (ih (pickLarger init x))
    unfold pickLarger
    split
    · next hlt => exact Nat.le_of_lt hlt
    · exact le_refl _

/-- The fold of `pickLarger` is at least as long as every list element. -/
theorem pickLarger_foldl_ge_mem (xs : List String) (init x : String)
    (hx : x ∈ xs) : x.length ≤ (xs.foldl pickLarger init).length := by
  induction xs generalizing init with
  | nil => cases hx
  | cons y ys ih =>
    simp only [List.foldl_cons]
    rcases List.mem_cons.mp hx with rfl | h
    · refine le_trans ?_ (pickLarger_foldl_ge_init ys (pickLarger init x))
      unfold pickLarger
      split
      · exact le_refl _
      · next hlt => exact Nat.le_of_not_lt hlt
    · exact ih _ h

/-- Claim C8, counterexample: for the response "```\n```" the only (hence
largest) fenced code block has empty content, and the handler's
`code || solutionText` fallback makes `code` the whole response text
rather than that block's content. -/
theorem C8_counterexample :
    fenceCapturesSol ("```\n```".length + 1) "```\n```".toList = [""] ∧
    (onSolutionSuccess "```\n```").code = "```\n```" :=
  ⟨rfl, rfl⟩

/-- Claim C8 (amended): whenever some fenced code block of the solution
response has non-empty content, `code` is a fenced capture of maximal
length (the whole response text is substituted only when every block is
empty or none exists); a missing "Time complexity" or "Space complexity"
label defaults the corresponding complexity to "O(n)"; and `thoughts` is
exactly the list of trimmed pre-code paragraphs whose trimmed length
exceeds 10 characters. -/
theorem C8_solution_fields (t : String)
    (h : ∃ c ∈ fenceCapturesSol (t.length + 1) t.toList, c ≠ "") :
    ((onSolutionSuccess t).code ∈ fenceCapturesSol (t.length + 1) t.toList ∧
      ∀ c ∈ fenceCapturesSol (t.length + 1) t.toList,
        c.length ≤ (onSolutionSuccess t).code.length) ∧
    (timeComplexityCapture t = none →
      (onSolutionSuccess t).time_complexity = "O(n)") ∧
    (spaceComplexityCapture t = none →
      (onSolutionSuccess t).space_complexity = "O(n)") ∧
    (∀ th, th ∈ (onSolutionSuccess t).thoughts ↔
      ∃ p ∈ splitParagraphs (preFenceText t), jsTrim p = th ∧ 10 < th.length) := by
  obtain ⟨c0, hc0, hc0ne⟩ := h
  have hc0len : 0 < c0.length := string_length_pos_of_ne_empty c0 hc0ne
  have hge : c0.length ≤
      ((fenceCapturesSol (t.length + 1) t.toList).foldl pickLarger "").length :=
    pickLarger_foldl_ge_mem _ "" c0 hc0
  have hpos : 0 < (jsLargest (fenceCapturesSol (t.length + 1) t.toList)).length :=
    lt_of_lt_of_le hc0len hge
  have hne : jsLargest (fenceCapturesSol (t.length + 1) t.toList) ≠ "" := by
    intro he
    rw [he] at hpos
    exact absurd hpos (by decide)
  have hcode : (onSolutionSuccess t).code =
      jsOr (jsLargest (fenceCapturesSol (t.length + 1) t.toList)) t := rfl
  refine ⟨⟨?_, ?_⟩, ?_, ?_, ?_⟩
  · rw [hcode]
    unfold jsOr
    rw [if_neg hne]
    rcases pickLarger_foldl_mem (fenceCapturesSol (t.length + 1) t.toList) "" with
      hm | hm
    · exact absurd hm hne
    · exact hm
  · intro c hc
    rw [hcode]
    unfold jsOr
    rw [if_neg hne]
    exact pickLarger_foldl_ge_mem _ "" c hc
  · intro hnone
    have hteq : (onSolutionSuccess t).time_complexity =
        jsOr (match timeComplexityCapture t with
              | some c => jsTrim c
              | none => "O(n)") "O(n)" := rfl
    rw [hteq, hnone]
    rfl
  · intro hnone
    have hseq : (onSolutionSuccess t).space_complexity =
        jsOr (match spaceComplexityCapture t with
              | some c => jsTrim c
              | none => "O(n)") "O(n)" := rfl
    rw [hseq, hnone]
    rfl
  · intro th
    have hth : (onSolutionSuccess t).thoughts =
        ((splitParagraphs (preFenceText t)).filter
          (fun p => decide (10 < (jsTrim p).length))).map jsTrim := rfl
    rw [hth]
    constructor
    · intro hmem
      rcases List.mem_map.mp hmem with ⟨p, hp, rfl⟩
      rcases List.mem_filter.mp hp with ⟨hpin, hpred⟩
      exact ⟨p, hpin, rfl, of_decide_eq_true hpred⟩
    · rintro ⟨p, hpin, rfl, hlen⟩
      exact List.mem_map.mpr ⟨p, List.mem_filter.mpr ⟨hpin, decide_eq_true hlen⟩, rfl⟩

/-- Sample solution response for the C8 witness. -/
def sampleSolution : String :=
  "This solution paragraph explains the approach in detail.\n\n```python\nreturn n * 2\n```"

/-- Witness for C8 (amended) at a concrete solution response with one
non-empty fenced block. -/
theorem C8_witness :
    ((onSolutionSuccess sampleSolution).code ∈
        fenceCapturesSol (sampleSolution.length + 1) sampleSolution.toList ∧
      ∀ c ∈ fenceCapturesSol (sampleSolution.length + 1) sampleSolution.toList,
        c.length ≤ (onSolutionSuccess sampleSolution).code.length) ∧
    (timeComplexityCapture sampleSolution = none →
      (onSolutionSuccess sampleSolution).time_complexity = "O(n)") ∧
    (spaceComplexityCapture sampleSolution = none →
      (onSolutionSuccess sampleSolution).space_complexity = "O(n)") ∧
    (∀ th, th ∈ (onSolutionSuccess sampleSolution).thoughts ↔
      ∃ p ∈ splitParagraphs (preFenceText sampleSolution),
        jsTrim p = th ∧ 10 < th.length) :=
  C8_solution_fields sampleSolution
    ⟨"return n * 2\n",
     by
       have hxs : fenceCapturesSol (sampleSolution.length + 1)
           sampleSolution.toList = ["return n * 2\n"] := rfl
       rw [hxs]
       exact List.mem_singleton_self _,
     by decide⟩

/-! ## Pipeline coordinator: cancellation and the debug pipeline
(ProcessingHelper.ts lines 578–644, 1062–1186; main.ts state) -/

/-- Coordinator state relevant to the pipelines: `state.problemInfo`,
`state.hasDebugged`, the view, and whether each pipeline currently holds
an AbortController. -/
structure CoordState where
  problemInfo : Option ProblemVal
  hasDebugged : Bool
  view : View
  hasProcessingController : Bool
  hasExtraController : Bool

/-- Embedding of `cancelOngoingRequests` (lines 1160–1186): aborts and
clears both controllers, resets `hasDebugged`, sets the problem info to
null ("Clear any pending state"), and sends NO_SCREENSHOTS when
something was cancelled. -/
def cancelOngoingRequests (s : CoordState) : CoordState × List Event :=
  let wasCancelled := s.hasProcessingController || s.hasExtraController
  ({ s with hasProcessingController := false, hasExtraController := false,
            hasDebugged := false, problemInfo := none },
   if wasCancelled then [Event.noScreenshots] else [])

/-- Outcomes of the external calls of the debug pipeline, per capture
path: `waitForInitialization`, the base64 read of the capture, the
normalization environment and target path, the read of the normalized
artifact, and the Ollama call with its response (or failure message). -/
structure DebugEnv where
  initOk : Bool
  readOk : String → Bool
  dataOf : String → String
  normEnv : String → NormalizeEnv
  normPathOf : String → String
  readNormOk : String → Bool
  apiOk : String → Bool
  analysisOf : String → String
  apiErrMsg : String → String

/-- The per-capture loop of `processExtraScreenshotsHelper`
(lines 1087–1125): normalize, read the normalized artifact, call the
model; the first thrown error aborts the batch. -/
def debugLoop (env : DebugEnv) : List (String × String) → Except String (List String)
  | [] => Except.ok []
  | (p, _) :: rest =>
      let np := normalizeImage (env.normEnv p) p (env.normPathOf p)
      if ¬ env.readNormOk np then Except.error "Error reading file"
      else if ¬ env.apiOk p then Except.error (env.apiErrMsg p)
      else
        match debugLoop env rest with
        | Except.ok xs => Except.ok (env.analysisOf p :: xs)
        | Except.error e => Except.error e

/-- Insert or replace a key in a JSON object, as the spread
`{...currentProblemInfo, extraInfo}` would. -/
def setKey (kvs : List (String × Json)) (key : String) (v : Json) :
    List (String × Json) :=
  if kvs.any (fun kv => kv.1 == key) then
    kvs.map (fun kv => if kv.1 == key then (key, v) else kv)
  else kvs ++ [(key, v)]

/-- `{ ...currentProblemInfo, extraInfo: combinedExtraInfo }`
(lines 1131–1134). -/
def mergeExtraInfo (pv : ProblemVal) (combined : String) : ProblemVal :=
  match pv with
  | ProblemVal.structured p =>
      ProblemVal.structured { p with extraInfo := some combined }
  | ProblemVal.fromJson (Json.obj kvs) =>
      ProblemVal.fromJson (Json.obj (setKey kvs "extraInfo" (Json.str combined)))
  | ProblemVal.fromJson j => ProblemVal.fromJson j

/-- Embedding of `processExtraScreenshotsHelper` (lines 1062–1158), called
with the freshly created controller's signal.  With no current problem
info the helper sends DEBUG_ERROR and stops; otherwise it runs the batch,
merges the joined analyses into `extraInfo` and sends DEBUG_SUCCESS, or
sends DEBUG_ERROR on the first failure (silently when aborted). -/
def processExtraScreenshotsHelper (s : CoordState) (aborted : Bool)
    (screenshots : List (String × String)) (env : DebugEnv) :
    CoordState × List Event :=
  if aborted then (s, [])
  else
    match s.problemInfo with
    | none =>
        (s, [Event.debugError "No problem information available to enhance."])
    | some current =>
        match debugLoop env screenshots with
        | Except.error e => (s, [Event.debugError e])
        | Except.ok analyses =>
            let combined := String.intercalate "\n\n" analyses
            let updated := mergeExtraInfo current combined
            ({ s with problemInfo := some updated },
             [Event.debugSuccess updated])

/-- Embedding of `processExtraScreenshots` (lines 578–644): it calls
`cancelOngoingRequests` first — nulling the problem info — then waits for
initialization, checks the secondary queue, creates the controller, sends
DEBUG_START, reads the captures as base64 (failures yield empty data,
filtered out), runs the helper, and finally clears the controller. -/
def processExtraScreenshots (s : CoordState) (extraQueue : List String)
    (env : DebugEnv) : CoordState × List Event :=
  let (s1, ev1) := cancelOngoingRequests s
  if ¬ env.initOk then
    (s1, ev1 ++ [Event.debugError "App failed to initialize after 5 seconds"])
  else if extraQueue = [] then
    (s1, ev1 ++ [Event.debugError
      "No extra screenshots to process. Please take additional screenshots first."])
  else
    let s2 := { s1 with hasExtraController := true }
    let screenshotsData := extraQueue.map (fun p =>
      (p, if env.readOk p then env.dataOf p else ""))
    let filtered := screenshotsData.filter (fun x => x.2 != "")
    let (s3, ev3) := processExtraScreenshotsHelper s2 false filtered env
    ({ s3 with hasExtraController := false }, ev1 ++ [Event.debugStart] ++ ev3)

/-- A concrete existing problem info for the C1 evaluation. -/
def sampleProblem : ProblemVal :=
  ProblemVal.structured
    { title := "T", description := "D", code := "C", examples := [],
      constraints := [], function_signature := "", original_problem := "O",
      extraInfo := none }

/-- A debug environment in which every external call succeeds. -/
def debugEnvOk : DebugEnv :=
  { initOk := true, readOk := fun _ => true, dataOf := fun _ => "IMG",
    normEnv := fun _ => NormalizeEnv.mk false true true true true true,
    normPathOf := fun p => p, readNormOk := fun _ => true,
    apiOk := fun _ => true, analysisOf := fun _ => "ANALYSIS",
    apiErrMsg := fun _ => "backend error" }

/-- Claim C1, refuting evaluation: triggering the debug pipeline while a
ProblemInfo exists and the secondary queue is non-empty first runs
`cancelOngoingRequests`, which sets the problem info to null; the helper
then finds no problem info and emits DEBUG_ERROR.  The existing
ProblemInfo is therefore altered (cleared) and nothing is ever merged
into its `extraInfo`, even though every external call succeeds. -/
theorem C1_debug_trigger_clears_problem_info :
    (processExtraScreenshots
        (CoordState.mk (some sampleProblem) true View.solutions false false)
        ["e1"] debugEnvOk).1.problemInfo = none ∧
    (processExtraScreenshots
        (CoordState.mk (some sampleProblem) true View.solutions false false)
        ["e1"] debugEnvOk).2 =
      [Event.debugStart,
       Event.debugError "No problem information available to enhance."] :=
  ⟨rfl, rfl⟩

/-! ## The initial pipeline and its cancellation behaviour
(ProcessingHelper.ts lines 265–471, 941–1060) -/

/-- Remove the first match of `LABEL[\s\S]*?(?=LOOKAHEAD-or-$)` — one
`.replace` pass of `removeMyThoughtsSection`: the lazy body runs from the
first (case-insensitive) label occurrence to the earliest lookahead
position or the end. -/
def removeLabeledSection (label : String) (lookAt : List Char → Bool)
    (t : String) : String :=
  let cs := t.toList
  match findLitCI label.toList cs with
  | some i =>
      let after := cs.drop (i + label.length)
      let d :=
        match findPos (fun suf => lookAt suf || suf.isEmpty) after with
        | some n => n
        | none => after.length
      String.mk (cs.take i ++ after.drop d)
  | none => t

/-- Lookahead `(?=# |## |$)` of the heading-style thought patterns. -/
def headingLookAt (suf : List Char) : Bool :=
  litAt "# ".toList suf || litAt "## ".toList suf

/-- Lookahead `(?=\n\n|$)` of the inline thought patterns. -/
def blankLineLookAt (suf : List Char) : Bool :=
  litAt ['\n', '\n'] suf

/-- Embedding of `removeMyThoughtsSection` (lines 1030–1060): eight
sequential first-match removals, then a trim. -/
def removeMyThoughtsSection (solution : String) : String :=
  let s1 := removeLabeledSection "# My Thoughts" headingLookAt solution
  let s2 := removeLabeledSection "## My Thoughts" headingLookAt s1
  let s3 := removeLabeledSection "My Thoughts:" blankLineLookAt s2
  let s4 := removeLabeledSection "My Analysis:" blankLineLookAt s3
  let s5 := removeLabeledSection "My Approach:" blankLineLookAt s4
  let s6 := removeLabeledSection "Thoughts:" blankLineLookAt s5
  let s7 := removeLabeledSection "Problem Understanding:" blankLineLookAt s6
  let s8 := removeLabeledSection "Problem Analysis:" blankLineLookAt s7
  jsTrim s8

/-- When, relative to the superseded run's progress, the superseding
`processScreenshots` call aborts that run's controller (line 268). -/
inductive AbortPoint where
  | duringOcr
  | duringAnalysis
  | beforePublish
  | duringSolutionGen
  | never
deriving DecidableEq, Repr

/-- Oracle for one `processScreenshots` run: the analysis response (the
OCR texts only form the request payload), and the solution call's
outcome. -/
structure InitialEnv where
  analysisResp : String
  solutionOk : Bool
  solutionResp : String
  solutionErrMsg : String

/-- Event trace of a `processScreenshots` run (lines 265–471) relative to
an abort of its controller, split into the events sent strictly before
the abort and those sent at or after it.

* Empty queue: NO_SCREENSHOTS and return (lines 285–291).
* Otherwise INITIAL_START (line 294), then the OCR loop, which contains
  no signal checkpoint (lines 300–352).
* `duringOcr` / `duringAnalysis`: the axios analysis call (line 372,
  carrying the signal) rejects with a cancellation error ("canceled");
  the outer catch (lines 460–470) does not test `signal.aborted` and
  sends INITIAL_SOLUTION_ERROR with the error message.
* `beforePublish`: the response was already received; PROBLEM_EXTRACTED
  is sent with no preceding signal check (line 416), and
  `generateSolutionsHelper` then returns at its entry check
  (line 942), so the abort arrives before PROBLEM_EXTRACTED yet the
  event is still emitted.
* `duringSolutionGen`: the solution call (line 981) rejects, and that
  helper's catch does test `signal.aborted` (line 1014) — silent.
* `never`: the solution call resolves and SOLUTION_SUCCESS carries the
  response with the thoughts sections removed (lines 999–1009), or its
  failure sends INITIAL_SOLUTION_ERROR (lines 1020–1025). -/
def processScreenshotsRun (queue : List String) (env : InitialEnv)
    (ap : AbortPoint) : List Event × List Event :=
  if queue = [] then ([Event.noScreenshots], [])
  else
    match ap with
    | AbortPoint.duringOcr =>
        ([Event.initialStart], [Event.initialSolutionError "canceled"])
    | AbortPoint.duringAnalysis =>
        ([Event.initialStart], [Event.initialSolutionError "canceled"])
    | AbortPoint.beforePublish =>
        ([Event.initialStart],
         [Event.problemExtracted (interpretResponse env.analysisResp)])
    | AbortPoint.duringSolutionGen =>
        ([Event.initialStart,
          Event.problemExtracted (interpretResponse env.analysisResp)], [])
    | AbortPoint.never =>
        ([Event.initialStart,
          Event.problemExtracted (interpretResponse env.analysisResp)] ++
          (if env.solutionOk then
            [Event.solutionSuccess (removeMyThoughtsSection env.solutionResp)]
          else [Event.initialSolutionError env.solutionErrMsg]), [])

/-- Claim C2, refuting evaluation: after a superseding run aborts the
in-flight run's controller, the superseded run still emits events — it
emits PROBLEM_EXTRACTED when its analysis response had already arrived
(no abort check precedes that send), and INITIAL_SOLUTION_ERROR
"canceled" when the abort lands during or before its analysis call,
because the outer catch of `processScreenshots` (unlike the catches of
`generateSolutionsHelper` and `processExtraScreenshotsHelper`) does not
test `signal.aborted`. -/
theorem C2_superseded_run_not_silent :
    (processScreenshotsRun ["s1"]
        (InitialEnv.mk "the analysis" true "sol" "err")
        AbortPoint.beforePublish).2 =
      [Event.problemExtracted (interpretResponse "the analysis")] ∧
    (processScreenshotsRun ["s1"]
        (InitialEnv.mk "the analysis" true "sol" "err")
        AbortPoint.duringAnalysis).2 =
      [Event.initialSolutionError "canceled"] :=
  ⟨rfl, rfl⟩
